import Mathlib

/-!
Verification of the per-row interaction engine and persistence sink of the
poly_scraper repository (`colour_worker.py`, `csv_writer.py`).

The Python code is shallowly embedded: pure helpers become Lean functions on
`Int` / `String` / `List`; the effectful browser primitives (element lookup,
clicking, waiting for network responses, reading text) are modelled by
explicit oracle records that fix the outcome of each primitive call, so that
every control-flow path of the Python code corresponds to a choice of oracle.
Python machine integers are unbounded, so `Int` is the exact integer model;
Python `%` with a positive right operand agrees with `Int.emod`, which is
Lean's `%` on `Int`.  Python truthiness of an `Optional[int]` (`None` and `0`
are falsy) is modelled explicitly.  Exceptions are modelled with `Except`:
an `Except.error` value is a raised exception propagating out of the embedded
fragment.  Python `str.lower` is modelled by ASCII lowering (`Char.toLower`),
and `str.strip` by dropping the whitespace characters recognised by
`Char.isWhitespace`; the claims under study do not depend on the behaviour of
either on exotic Unicode input.
-/

/-! ### Shared string helpers (Python `str.strip`, `str.lower`) -/

/-- Python `s.strip()`: drop leading and trailing whitespace (list form). -/
def py_strip (l : List Char) : List Char :=
  ((l.dropWhile Char.isWhitespace).reverse.dropWhile Char.isWhitespace).reverse

/-- Python `s.strip()` on strings. -/
def py_strip_str (s : String) : String :=
  String.mk (py_strip s.toList)

/-- Python `s.lower()` on strings (ASCII model). -/
def py_lower (s : String) : String :=
  String.mk (s.toList.map Char.toLower)

/-! ### C10 — `RangeCsvWriter._range_key` (csv_writer.py lines 17-22)

```python
key = name.strip().lower().replace(" ", "_")
key = re.sub(r"[^a-z0-9_]+", "", key)
return key or "unknown_range"
```
-/

/-- The character class kept by `re.sub(r"[^a-z0-9_]+", "", key)`. -/
def key_char_ok (c : Char) : Bool :=
  ('a' ≤ c && c ≤ 'z') || ('0' ≤ c && c ≤ '9') || c = '_'

/-- `" "` to `"_"` replacement done by `.replace(" ", "_")` (single chars, so
characterwise replacement is exact). -/
def space_to_underscore (c : Char) : Char :=
  if c = ' ' then '_' else c

/-- The character pipeline of `_range_key`: strip, lower, replace spaces,
drop everything outside `[a-z0-9_]`. -/
def range_key_chars (l : List Char) : List Char :=
  (((py_strip l).map Char.toLower).map space_to_underscore).filter key_char_ok

/-- `RangeCsvWriter._range_key` (csv_writer.py lines 17-22). -/
def range_key (name : String) : String :=
  let key := String.mk (range_key_chars name.toList)
  if key = "" then "unknown_range" else key

/-! ### C7 — `_wait_text_fast` / `_visible_text_or_empty`
(colour_worker.py lines 23-28 and 36-50)

The three effectful primitives called there are `loc.element_handle`,
`page.wait_for_function` and `loc.text_content`.  Each either returns or
raises; the source distinguishes exactly two kinds of raised exception:
playwright's `TimeoutError` (imported as `PWTimeout`) and everything else. -/

/-- A raised playwright exception: the wait-timeout error, or any other
exception (detached node, destroyed execution context, closed page, ...). -/
inductive PwFail where
  | timeout
  | other
deriving DecidableEq

/-- One behaviour of the dynamic text region: the outcome of each primitive
call made by `_wait_text_fast`.  `handleResult` is `loc.element_handle`
(`Option` because the code checks the handle for nullness), `waitResult` is
`page.wait_for_function`, `readResult` is `loc.text_content` (which returns
`Optional[str]`). -/
structure RegionBehaviour where
  handleResult : Except PwFail (Option Unit)
  waitResult : Except PwFail Unit
  readResult : Except PwFail (Option String)

/-- `_visible_text_or_empty` (colour_worker.py lines 23-28):
`(txt or "").strip()` with every exception mapped to `""`. -/
def visible_text_or_empty (read : Except PwFail (Option String)) : String :=
  match read with
  | .ok t => py_strip_str (t.getD "")
  | .error _ => ""

/-- `_wait_text_fast` (colour_worker.py lines 36-50).  The handle acquisition
catches every exception (`handle = None` then).  The wait is guarded only by
`except PWTimeout: pass`, so a non-timeout exception raised by the wait
propagates.  The final read never raises. -/
def wait_text_fast (b : RegionBehaviour) : Except PwFail String :=
  let handle : Option Unit :=
    match b.handleResult with
    | .ok h => h
    | .error _ => none
  match handle with
  | none => .ok (visible_text_or_empty b.readResult)
  | some _ =>
    match b.waitResult with
    | .ok _ => .ok (visible_text_or_empty b.readResult)
    | .error .timeout => .ok (visible_text_or_empty b.readResult)
    | .error .other => .error .other

/-! ### C1 — the trigger phase of one lookup in `_click_pair`
(colour_worker.py lines 215-224, and symmetrically 228-237)

```python
if code:
    try:
        async with page.expect_response(_resp_matcher_contains(code), timeout=1050):
            await _safe_click(stock_btn)
    except PWTimeout:
        await _safe_click(stock_btn)
else:
    await _safe_click(stock_btn)
```

`_safe_click` never raises (every path is wrapped in `except Exception`).
The `expect_response` context manager runs its body (the click) first; the
timeout error is raised when leaving the context, after the body completed,
if no matching response arrived within the bound.  The trace records the
events in order. -/

inductive TriggerEv where
  | safeClick
  | waitBegin
  | waitEnd (matched : Bool)
deriving DecidableEq

/-- Event trace of one lookup's trigger phase, parametrised by whether the
correlation token is non-empty and whether a matching response arrives in
time. -/
def lookup_trigger_trace (code : String) (respArrives : Bool) : List TriggerEv :=
  if code = "" then [TriggerEv.safeClick]
  else if respArrives then
    [TriggerEv.waitBegin, TriggerEv.safeClick, TriggerEv.waitEnd true]
  else
    [TriggerEv.waitBegin, TriggerEv.safeClick, TriggerEv.waitEnd false,
     TriggerEv.safeClick]

/-- Number of `_safe_click` invocations in a trace. -/
def click_count (t : List TriggerEv) : Nat :=
  t.count TriggerEv.safeClick

/-- Number of bounded response waits entered in a trace. -/
def wait_count (t : List TriggerEv) : Nat :=
  t.countP (fun e => match e with | TriggerEv.waitBegin => true | _ => false)

/-! ### C2 — exception scope of a row's interaction

In `_click_pair` (colour_worker.py lines 215-241) each of the two lookups is
wrapped in its own `try`: an exception inside the lookup body becomes the
marker text `"ERROR"` for that lookup only, and an empty read becomes
`"EMPTY"` (`... or "EMPTY"`).  But `_click_and_get_result` and the row loop
of `process_colour` contain no further handler: the awaits outside the two
lookup bodies — `item.scroll_into_view_if_needed()` at line 252 and inside
`_extract_specs_from_item` at line 330 — are not caught anywhere below the
per-catalog-entry handler of the run loop. -/

/-- Outcome of one lookup's body (trigger + read): a produced text, or a
raised exception. -/
inductive LookupOutcome where
  | ok (text : String)
  | raise
deriving DecidableEq

/-- The marker substitution of `_click_pair`:
`stock_text = await _wait_text_fast(...) or "EMPTY"` under
`except Exception: stock_text = "ERROR"`. -/
def lookup_result : LookupOutcome → String
  | .ok t => if t = "" then "EMPTY" else t
  | .raise => "ERROR"

/-- One row's interaction, as seen from the exception structure:
`preRaises` is true when one of the uncaught awaits before/around the
lookups (e.g. `scroll_into_view_if_needed`, lines 252 and 330) raises. -/
structure RowRun where
  preRaises : Bool
  stockOutcome : LookupOutcome
  priceOutcome : LookupOutcome
deriving DecidableEq

/-- The (stock, price) texts of one row, or a propagated exception. -/
def row_interaction (r : RowRun) : Except Unit (String × String) :=
  if r.preRaises then .error ()
  else .ok (lookup_result r.stockOutcome, lookup_result r.priceOutcome)

/-- The row loop of `process_colour` (colour_worker.py lines 465-532): rows
are processed in order and there is no `try` around the loop body, so a
raised exception aborts the whole catalog entry. -/
def process_rows : List RowRun → Except Unit (List (String × String))
  | [] => .ok []
  | r :: rest =>
    match row_interaction r with
    | .error e => .error e
    | .ok p =>
      match process_rows rest with
      | .error e => .error e
      | .ok ps => .ok (p :: ps)

/-! ### C3 / C4 / C9 — MOQ arithmetic and the retry structure of
`_click_and_get_result` (colour_worker.py lines 182-188 and 243-327) -/

/-- `_bump_to_multiple` (colour_worker.py lines 182-188). -/
def bump_to_multiple (qty min_qty step : Int) : Int :=
  let q := max qty min_qty
  if 1 < step then
    let rem := q % step
    if rem ≠ 0 then q + (step - rem) else q
  else q

/-- Python truthiness of an `Optional[int]`: `None` and `0` are falsy. -/
def opt_truthy : Option Int → Bool
  | none => false
  | some v => v != 0

/-- Python `x or d` for `x : Optional[int]`. -/
def py_or (x : Option Int) (d : Int) : Int :=
  match x with
  | none => d
  | some v => if v = 0 then d else v

/-- The oracle fixing one row's observable behaviour during
`_click_and_get_result`: the MOQ hints read before the first click
(`_read_item_moq_hints` result), the MOQ-pattern predicate on the two result
texts (`_need_moq_retry`, a fixed regex in the source, kept abstract here),
the numbers parsed from the re-scanned result texts
(`_extract_moq_from_text(more_texts)`), and the `(stock, price)` texts
produced by the k-th `_click_pair` round. -/
structure RowOracle where
  minHint : Option Int
  stepHint : Option Int
  needRetry : String → String → Bool
  minRetry : Option Int
  stepRetry : Option Int
  results : Nat → String × String

/-- First-pass quantity (colour_worker.py lines 279-292):
`if moq_min_hint or moq_step_hint: ...` with `or 1` defaults, else the
requested quantity with `min = step = 1`. -/
def first_pass (o : RowOracle) (requested : Int) : Int × Int × Int :=
  if opt_truthy o.minHint || opt_truthy o.stepHint then
    let m := py_or o.minHint 1
    let s := py_or o.stepHint 1
    (bump_to_multiple requested m s, m, s)
  else (requested, 1, 1)

/-- The candidate quantity of the MOQ retry (colour_worker.py lines 307-310):
merged maxima of the known and re-parsed constraints, and the re-bumped
quantity. -/
def retry_bumped (o : RowOracle) (requested : Int) : Int × Int × Int :=
  let (u0, m0, s0) := first_pass o requested
  let effMin := max m0 (py_or o.minRetry 1)
  let effStep := max s0 (py_or o.stepRetry 1)
  (bump_to_multiple (max u0 requested) effMin effStep, effMin, effStep)

/-- Gate of the second `_click_pair` round (lines 300 and 311): an MOQ
pattern matched the first round's texts and the recomputed quantity changed. -/
def retry_gate (o : RowOracle) (requested : Int) : Bool :=
  o.needRetry (o.results 0).1 (o.results 0).2
    && decide ((retry_bumped o requested).1 ≠ (first_pass o requested).1)

/-- State after the optional MOQ retry (colour_worker.py lines 294-318):
`(stock_text, price_text, used_qty, moq_min, moq_step)`. -/
def after_retry (o : RowOracle) (requested : Int) :
    String × String × Int × Int × Int :=
  let (u0, m0, s0) := first_pass o requested
  let (st1, pr1) := o.results 0
  if o.needRetry st1 pr1 then
    let (bumped, effMin, effStep) := retry_bumped o requested
    if bumped ≠ u0 then
      let (st2, pr2) := o.results 1
      (st2, pr2, bumped, effMin, effStep)
    else (st1, pr1, u0, effMin, effStep)
  else (st1, pr1, u0, m0, s0)

/-- Number of `_click_pair` rounds performed up to and including the retry. -/
def rounds_after_retry (o : RowOracle) (requested : Int) : Nat :=
  if retry_gate o requested then 2 else 1

/-- Gate of the final fallback round (colour_worker.py line 321):
`stock_text in ("", "EMPTY") and price_text in ("", "EMPTY")`. -/
def fallback_gate (o : RowOracle) (requested : Int) : Bool :=
  let (st, pr, _, _, _) := after_retry o requested
  (st = "" || st = "EMPTY") && (pr = "" || pr = "EMPTY")

/-- Result of `_click_and_get_result`. -/
structure InteractionResult where
  stock : String
  price : String
  used : Int
  moqMin : Int
  moqStep : Int
  rounds : Nat
deriving DecidableEq

/-- `_click_and_get_result` (colour_worker.py lines 243-327), restricted to
the quantity/retry logic; `rounds` counts the `_click_pair` invocations. -/
def click_and_get_result (o : RowOracle) (requested : Int) : InteractionResult :=
  let (st, pr, u, m, s) := after_retry o requested
  let n := rounds_after_retry o requested
  if (st = "" || st = "EMPTY") && (pr = "" || pr = "EMPTY") then
    let (st3, pr3) := o.results n
    ⟨st3, pr3, u, m, s, n + 1⟩
  else ⟨st, pr, u, m, s, n⟩

/-! ### C5 — the dedup loop of `process_colour`
(colour_worker.py lines 451-479)

```python
seen: Set[Tuple[str, str]] = set()
...
if (finish_display, sku) in seen and sku:
    continue
if sku:
    seen.add((finish_display, sku))
... rows.append(ColourRow(...))
```

A run is modelled as the flattened sequence of `(finish, sku)` pairs met
across all tabs (the `seen` set is created once, before the tab loop).  The
function returns the keys of the emitted records, in order, together with the
final `seen` set (as a list). -/

def walk_rows : List (String × String) → List (String × String) →
    List (String × String) × List (String × String)
  | [], seen => ([], seen)
  | (f, s) :: rest, seen =>
    if (f, s) ∈ seen ∧ s ≠ "" then walk_rows rest seen
    else
      let seen' := if s ≠ "" then (f, s) :: seen else seen
      let (out, fin) := walk_rows rest seen'
      ((f, s) :: out, fin)

/-! ### C6 — `RangeCsvWriter` schema growth (csv_writer.py lines 52-102)

The writer is modelled for one fixed range key: `schema` is the entry of
`self.schemas` for that key, `file` is the CSV file on disk (header line plus
data rows, each row a list of cells aligned with the header — the only files
reachable by the writer itself).  `csv.DictReader` turns a data row into the
mapping `header[i] -> cells[i]`; `r.get(k, "")` on it is `row_lookup`. -/

structure CsvFile where
  header : List String
  rows : List (List String)
deriving DecidableEq

structure WriterState where
  coreFields : List String
  schema : Option (List String)
  file : Option CsvFile
deriving DecidableEq

/-- `_load_existing_header` (csv_writer.py lines 27-35). -/
def load_existing_header : Option CsvFile → List String
  | none => []
  | some c => c.header

/-- `r.get(k, "")` where `r` is the `DictReader` row for `cells` under
`header`. -/
def row_lookup (header cells : List String) (k : String) : String :=
  ((header.zip cells).lookup k).getD ""

/-- The loop `for sf in spec_fields: if sf and sf not in header:
header.append(sf)` (csv_writer.py lines 67-69). -/
def add_fields (header : List String) (specFields : List String) : List String :=
  specFields.foldl (fun h sf => if sf ≠ "" ∧ sf ∉ h then h ++ [sf] else h) header

/-- `_write_all` (csv_writer.py lines 44-50): every row read back from the
old file is written out under the new header, missing keys filled with `""`. -/
def write_all (header : List String) (old : CsvFile) : CsvFile :=
  { header := header
    rows := old.rows.map (fun cells => header.map (row_lookup old.header cells)) }

/-- The in-memory header `_ensure_schema` starts from (csv_writer.py lines
56-62): the stored schema if present, else the on-disk header if non-empty,
else the core fields. -/
def effective_schema (st : WriterState) : List String :=
  match st.schema with
  | some h => h
  | none =>
    let eh := load_existing_header st.file
    if eh ≠ [] then eh else st.coreFields

/-- `_ensure_schema` (csv_writer.py lines 52-78): grow the header by the new
spec fields, and rewrite the file in place when its header differs. -/
def ensure_schema (st : WriterState) (specFields : List String) :
    WriterState × List String :=
  let header := add_fields (effective_schema st) specFields
  let file' :=
    match st.file with
    | none => none
    | some c => if c.header ≠ header then some (write_all header c) else some c
  ({ st with schema := some header, file := file' }, header)

/-- `append_row` (csv_writer.py lines 80-102).  The boolean output records
whether `csv.DictWriter.writerow` raised `ValueError` (a row key outside the
header, i.e. a core field missing from the header); in that case, on a fresh
file the header line was already written before the raise. -/
def append_row (st : WriterState) (core specs : List (String × String)) :
    WriterState × Bool :=
  let safeSpecs := specs.filter (fun kv => (core.lookup kv.1).isNone)
  let (st1, header) := ensure_schema st (safeSpecs.map Prod.fst)
  if st.coreFields.all (fun k => k ∈ header) then
    let rowCells := header.map (fun k =>
      if k ∈ st.coreFields then ((core.lookup k).getD "")
      else ((safeSpecs.lookup k).getD ""))
    let file' :=
      match st1.file with
      | none => some ⟨header, [rowCells]⟩
      | some c => some ⟨c.header, c.rows ++ [rowCells]⟩
    ({ st1 with file := file' }, false)
  else
    (match st1.file with
     | none => { st1 with file := some ⟨header, []⟩ }
     | some _ => st1, true)

/-- Number of data rows of the on-disk file, when it exists. -/
def file_row_count : Option CsvFile → Option Nat
  | none => none
  | some c => some c.rows.length

/-! ### C8 — `_read_item_moq_hints` merge (colour_worker.py lines 147-180)

The two regex-derived numbers (`_extract_moq_from_text` of the row's warning
texts) enter as `Option Int` inputs; `_parse_int` is modelled by
`String.toInt?` on the stripped string (Python `int(str(s).strip())` with
exceptions mapped to `None`). -/

/-- Digit-run value of Python `int()`: all characters must be ASCII digits
and at least one must be present. -/
def parse_digits (cs : List Char) : Option Nat :=
  if cs = [] then none
  else
    cs.foldl
      (fun acc c =>
        match acc with
        | none => none
        | some n => if c.isDigit then some (n * 10 + (c.toNat - 48)) else none)
      (some 0)

/-- Python `int(s)` on an already-stripped string: optional sign followed by
ASCII digits (exotic accepted forms such as underscore separators or
non-ASCII digits are out of model); anything else is `None`. -/
def parse_int_chars : List Char → Option Int
  | '-' :: rest => (parse_digits rest).map (fun n => -(n : Int))
  | '+' :: rest => (parse_digits rest).map (fun n => (n : Int))
  | cs => (parse_digits cs).map (fun n => (n : Int))

/-- `_parse_int` (colour_worker.py lines 130-136):
`int(str(s).strip())` with exceptions mapped to `None`. -/
def parse_int_opt (s : String) : Option Int :=
  parse_int_chars (py_strip s.toList)

/-- The attribute-derived minimum:
`min_qty = _parse_int(min_attr) if min_attr else None` (line 172). -/
def attr_min_value : Option String → Option Int
  | none => none
  | some s => if s ≠ "" then parse_int_opt s else none

/-- The attribute-derived step:
`step = _parse_int(step_attr) if step_attr and str(step_attr).lower() != "any"
else None` (line 173). -/
def attr_step_value : Option String → Option Int
  | none => none
  | some s => if s ≠ "" ∧ py_lower s ≠ "any" then parse_int_opt s else none

/-- The per-field merge of lines 175-178:
`if text and (attr is None or text > attr): attr = text`. -/
def merge_text_over (attrVal textVal : Option Int) : Option Int :=
  match textVal with
  | none => attrVal
  | some t =>
    if t = 0 then attrVal
    else
      match attrVal with
      | none => some t
      | some a => if a < t then some t else attrVal

/-- `_read_item_moq_hints` (colour_worker.py lines 147-180), as a function of
the raw attributes and of the two numbers parsed from the scoped texts. -/
def read_item_moq_hints (minAttr stepAttr : Option String)
    (minText stepText : Option Int) : Option Int × Option Int :=
  (merge_text_over (attr_min_value minAttr) minText,
   merge_text_over (attr_step_value stepAttr) stepText)

/-- Modelled from the spec: "Merge attribute-derived and text-derived values
by taking the larger of the two per field when both exist" (and the sole
available one otherwise).  Used only to compare the claimed merge against the
source's merge. -/
def spec_merge_larger : Option Int → Option Int → Option Int
  | none, none => none
  | some a, none => some a
  | none, some t => some t
  | some a, some t => some (max a t)

/-! ## Lemmas and theorems -/

/-! ### MOQ arithmetic (C4, C3, C9) -/

theorem bump_eq (qty m s : Int) :
    bump_to_multiple qty m s =
      if 1 < s ∧ (max qty m) % s ≠ 0 then max qty m + (s - max qty m % s)
      else max qty m := by
  unfold bump_to_multiple
  by_cases hs : 1 < s
  · by_cases hr : (max qty m) % s ≠ 0 <;> simp [hs, hr]
  · simp [hs]

theorem bump_ge_max (qty m s : Int) : max qty m ≤ bump_to_multiple qty m s := by
  rw [bump_eq]
  by_cases h : 1 < s ∧ (max qty m) % s ≠ 0
  · rw [if_pos h]
    have h2 : (max qty m) % s < s := Int.emod_lt_of_pos _ (by omega)
    omega
  · rw [if_neg h]

theorem bump_ge_qty (qty m s : Int) : qty ≤ bump_to_multiple qty m s :=
  le_trans (le_max_left qty m) (bump_ge_max qty m s)

theorem bump_ge_min (qty m s : Int) : m ≤ bump_to_multiple qty m s :=
  le_trans (le_max_right qty m) (bump_ge_max qty m s)

theorem bump_emod (qty m s : Int) (hs : 1 < s) :
    bump_to_multiple qty m s % s = 0 := by
  rw [bump_eq]
  by_cases hr : (max qty m) % s ≠ 0
  · rw [if_pos ⟨hs, hr⟩]
    have hd : max qty m + (s - max qty m % s) = s * (max qty m / s + 1) := by
      have h := Int.ediv_add_emod (max qty m) s
      rw [Int.mul_add, Int.mul_one]
      linarith
    rw [hd]
    exact Int.mul_emod_right _ _
  · rw [if_neg (by tauto)]
    push_neg at hr
    exact hr

theorem bump_least (qty m s y : Int) (hs : 1 < s) (hr : (max qty m) % s ≠ 0)
    (hy : s ∣ y) (hgt : max qty m < y) : bump_to_multiple qty m s ≤ y := by
  rw [bump_eq, if_pos ⟨hs, hr⟩]
  obtain ⟨k, rfl⟩ := hy
  have h0 : (0 : Int) < s := by omega
  have h1 := Int.ediv_add_emod (max qty m) s
  have hmod0 : 0 ≤ (max qty m) % s := Int.emod_nonneg _ (by omega)
  have hmods : (max qty m) % s < s := Int.emod_lt_of_pos _ h0
  have hk : max qty m / s < k := by
    by_contra hkle
    push_neg at hkle
    have h2 : s * k ≤ s * (max qty m / s) :=
      mul_le_mul_of_nonneg_left hkle (le_of_lt h0)
    linarith
  have h3 : s * (max qty m / s + 1) ≤ s * k :=
    mul_le_mul_of_nonneg_left (by omega) (le_of_lt h0)
  have h4 : s * (max qty m / s + 1) = s * (max qty m / s) + s := by ring
  linarith

/-- C4: for requested, min, step all at least 1, `_bump_to_multiple` returns
`max(requested, min)` when `step ≤ 1` or that maximum is already divisible by
`step`, and otherwise the least multiple of `step` strictly above
`max(requested, min)`; in particular `bump(q, 1, 1) = q` and
`bump(1, 5, 3) = 6`. -/
theorem bump_to_multiple_spec (q m s : Int) (hq : 1 ≤ q) (hm : 1 ≤ m)
    (hs : 1 ≤ s) :
    ((s ≤ 1 ∨ (max q m) % s = 0) → bump_to_multiple q m s = max q m)
    ∧ (1 < s → (max q m) % s ≠ 0 →
        s ∣ bump_to_multiple q m s ∧ max q m < bump_to_multiple q m s
        ∧ ∀ y : Int, s ∣ y → max q m < y → bump_to_multiple q m s ≤ y)
    ∧ bump_to_multiple q 1 1 = q
    ∧ bump_to_multiple 1 5 3 = 6 := by
  refine ⟨?_, ?_, ?_, by decide⟩
  · intro h
    rw [bump_eq, if_neg]
    rintro ⟨h1, h2⟩
    rcases h with h | h
    · omega
    · exact h2 h
  · intro h1 h2
    refine ⟨Int.dvd_of_emod_eq_zero (bump_emod q m s h1), ?_, ?_⟩
    · rw [bump_eq, if_pos ⟨h1, h2⟩]
      have hmod0 : 0 ≤ (max q m) % s := Int.emod_nonneg _ (by omega)
      have hmods : (max q m) % s < s := Int.emod_lt_of_pos _ (by omega)
      omega
    · intro y hy hgt
      exact bump_least q m s y h1 h2 hy hgt
  · rw [bump_eq]
    have : max q 1 = q := max_eq_left hq
    rw [if_neg (by omega), this]

/-- Witness for `bump_to_multiple_spec` at a concrete input. -/
theorem bump_to_multiple_spec_witness : bump_to_multiple 1 5 3 = 6 :=
  (bump_to_multiple_spec 1 5 3 (by decide) (by decide) (by decide)).2.2.2

theorem first_pass_inv (o : RowOracle) (q : Int) (hq : 1 ≤ q) :
    q ≤ (first_pass o q).1 ∧ (first_pass o q).2.1 ≤ (first_pass o q).1
    ∧ (1 < (first_pass o q).2.2 → (first_pass o q).1 % (first_pass o q).2.2 = 0) := by
  unfold first_pass
  split
  · exact ⟨bump_ge_qty _ _ _, bump_ge_min _ _ _, fun h => bump_emod _ _ _ h⟩
  · refine ⟨le_refl q, hq, fun h => ?_⟩
    simp at h

theorem retry_bumped_inv (o : RowOracle) (q : Int) :
    q ≤ (retry_bumped o q).1 ∧ (retry_bumped o q).2.1 ≤ (retry_bumped o q).1
    ∧ (1 < (retry_bumped o q).2.2 → (retry_bumped o q).1 % (retry_bumped o q).2.2 = 0) := by
  unfold retry_bumped
  rcases hfp : first_pass o q with ⟨u0, m0, s0⟩
  refine ⟨?_, bump_ge_min _ _ _, fun h => bump_emod _ _ _ h⟩
  exact le_trans (le_max_right u0 q) (bump_ge_qty _ _ _)

theorem after_retry_inv (o : RowOracle) (q : Int) (hq : 1 ≤ q) :
    q ≤ (after_retry o q).2.2.1 ∧ (after_retry o q).2.2.2.1 ≤ (after_retry o q).2.2.1
    ∧ (1 < (after_retry o q).2.2.2.2 →
        (after_retry o q).2.2.1 % (after_retry o q).2.2.2.2 = 0) := by
  have hfpi := first_pass_inv o q hq
  have hrbi := retry_bumped_inv o q
  unfold after_retry
  rcases hfp : first_pass o q with ⟨u0, m0, s0⟩
  rcases hr0 : o.results 0 with ⟨st1, pr1⟩
  rw [hfp] at hfpi
  rcases hrb : retry_bumped o q with ⟨bumped, effMin, effStep⟩
  rw [hrb] at hrbi
  dsimp only at hfpi hrbi ⊢
  split
  · split
    · exact hrbi
    · next hne =>
      push_neg at hne
      rw [← hne]
      exact hrbi
  · exact hfpi

/-- C3: for every row interaction with requested quantity at least 1, the
`(used_qty, moq_min, moq_step)` returned by `_click_and_get_result` satisfies
`used_qty ≥ requested`, `used_qty ≥ moq_min`, and `moq_step ∣ used_qty`
whenever `moq_step > 1`, on every control-flow path (with or without the
post-click MOQ retry and the final fallback round). -/
theorem click_and_get_result_qty_invariant (o : RowOracle) (q : Int)
    (hq : 1 ≤ q) :
    q ≤ (click_and_get_result o q).used
    ∧ (click_and_get_result o q).moqMin ≤ (click_and_get_result o q).used
    ∧ (1 < (click_and_get_result o q).moqStep →
        (click_and_get_result o q).used % (click_and_get_result o q).moqStep = 0) := by
  have hari := after_retry_inv o q hq
  unfold click_and_get_result
  rcases har : after_retry o q with ⟨st, pr, u, m, s⟩
  rw [har] at hari
  dsimp only at hari ⊢
  split
  · exact hari
  · exact hari

/-- Witness for `click_and_get_result_qty_invariant` at a concrete oracle
(an MOQ hint `min=5, step=3` and a post-click retry parsing `min=7`). -/
theorem click_and_get_result_qty_witness :
    1 ≤ (1 : Int)
    ∧ 1 ≤ (click_and_get_result
        ⟨some 5, some 3, fun _ _ => true, some 7, none,
         fun _ => ("IN STOCK", "$10")⟩ 1).used :=
  ⟨by decide,
   (click_and_get_result_qty_invariant
     ⟨some 5, some 3, fun _ _ => true, some 7, none,
      fun _ => ("IN STOCK", "$10")⟩ 1 (by decide)).1⟩

/-- C9: the clear-set-trigger-read round (`_click_pair`) runs at least once
and at most three times per row interaction: exactly one initial round, one
more exactly when an MOQ pattern matched the first round's texts and the
recomputed quantity changed (`retry_gate`), and one more exactly when both
results were still empty afterwards (`fallback_gate`); there is no
unconditional looping. -/
theorem click_pair_round_bound (o : RowOracle) (q : Int) :
    (click_and_get_result o q).rounds
      = 1 + (if retry_gate o q then 1 else 0)
          + (if fallback_gate o q then 1 else 0)
    ∧ 1 ≤ (click_and_get_result o q).rounds
    ∧ (click_and_get_result o q).rounds ≤ 3 := by
  have hrounds : (click_and_get_result o q).rounds
      = rounds_after_retry o q + (if fallback_gate o q then 1 else 0) := by
    unfold click_and_get_result fallback_gate
    rcases har : after_retry o q with ⟨st, pr, u, m, s⟩
    dsimp only
    split
    · simp
    · simp
  rw [hrounds]
  unfold rounds_after_retry
  by_cases hg : retry_gate o q <;> by_cases hf : fallback_gate o q <;>
    simp [hg, hf]

/-! ### Response correlator (C1) -/

/-- C1 counterexample: with a non-empty correlation token and no matching
response arriving within the bound, the trigger phase of a lookup issues the
click twice (once inside the bounded wait, once in the timeout handler), not
exactly once. -/
theorem lookup_trigger_timeout_two_clicks :
    click_count (lookup_trigger_trace "x" false) = 2
    ∧ click_count (lookup_trigger_trace "x" false) ≠ 1 := by decide

/-- C1 (amended): the click is issued exactly once when the token is empty or
a matching response arrives within the bound, and exactly twice when the
bounded wait for a non-empty token times out (the timeout handler re-issues
the click); the bounded wait itself is entered exactly once for a non-empty
token and never re-entered, and never entered for an empty token. -/
theorem lookup_trigger_click_count (code : String) (respArrives : Bool) :
    click_count (lookup_trigger_trace code respArrives)
      = (if code = "" ∨ respArrives = true then 1 else 2)
    ∧ wait_count (lookup_trigger_trace code respArrives)
      = (if code = "" then 0 else 1) := by
  unfold lookup_trigger_trace click_count wait_count
  by_cases hc : code = "" <;> cases respArrives <;>
    simp [hc, List.count_cons, List.count_nil, List.countP_cons]

/-! ### Exception scope of a row (C2) -/

/-- C2 counterexample: a row whose uncaught pre-lookup step (for instance
`item.scroll_into_view_if_needed()`, colour_worker.py line 252) raises aborts
the whole catalog entry: no ERROR marker is produced and the following row is
never processed, instead of the walker continuing to the next row. -/
theorem process_rows_aborts_on_row_exception :
    process_rows
        [⟨true, LookupOutcome.ok "S", LookupOutcome.ok "P"⟩,
         ⟨false, LookupOutcome.ok "S", LookupOutcome.ok "P"⟩]
      = Except.error () := rfl

/-- C2 (amended): exceptions raised inside a lookup's trigger-and-read body
are caught at the lookup boundary and surfaced as the `"ERROR"` marker for
that lookup only, and the walker continues to the next row; but an exception
raised outside the two lookup bodies is not caught at the row boundary and
aborts the catalog entry, so the claimed row-boundary recovery holds exactly
when every row's non-lookup steps return normally. -/
theorem process_rows_lookup_errors_localised (rows : List RowRun)
    (h : ∀ r ∈ rows, r.preRaises = false) :
    process_rows rows
      = Except.ok (rows.map (fun r =>
          (lookup_result r.stockOutcome, lookup_result r.priceOutcome))) := by
  induction rows with
  | nil => rfl
  | cons r rest ih =>
    have hr : r.preRaises = false := h r (by simp)
    have hrest := ih (fun x hx => h x (by simp [hx]))
    simp [process_rows, row_interaction, hr, hrest]

/-- Witness for `process_rows_lookup_errors_localised`: a raising stock
lookup yields the ERROR marker for that lookup only and the next row is still
processed. -/
theorem process_rows_lookup_errors_localised_witness :
    process_rows
        [⟨false, LookupOutcome.raise, LookupOutcome.ok "P"⟩,
         ⟨false, LookupOutcome.ok "S", LookupOutcome.ok "P"⟩]
      = Except.ok [("ERROR", "P"), ("S", "P")] :=
  (process_rows_lookup_errors_localised
    [⟨false, LookupOutcome.raise, LookupOutcome.ok "P"⟩,
     ⟨false, LookupOutcome.ok "S", LookupOutcome.ok "P"⟩]
    (by decide)).trans rfl

/-! ### Text settle reader (C7) -/

/-- C7 counterexample: the wait step is guarded only against the timeout
error, so a region behaviour in which `wait_for_function` raises a
non-timeout exception (for instance when the region's execution context is
destroyed mid-wait) makes `_wait_text_fast` raise instead of returning a
text. -/
theorem wait_text_fast_raises_on_nontimeout :
    wait_text_fast
        ⟨Except.ok (some ()), Except.error PwFail.other,
         Except.ok (some "late")⟩
      = Except.error PwFail.other := rfl

/-- C7 (amended): `_wait_text_fast` returns (never raises) whenever the wait
step does not raise a non-timeout exception — in particular for a region that
never attaches (failed handle acquisition) or whose wait times out — and the
returned value is the final read's text stripped of surrounding whitespace,
the empty string when that read fails, returns no text, or returns the empty
text; only a non-timeout exception of the wait itself propagates. -/
theorem wait_text_fast_spec (b : RegionBehaviour) :
    (wait_text_fast b = Except.ok (visible_text_or_empty b.readResult)
      ∨ (b.waitResult = Except.error PwFail.other
          ∧ wait_text_fast b = Except.error PwFail.other))
    ∧ (∀ t, visible_text_or_empty (Except.ok (some t)) = py_strip_str t)
    ∧ (∀ e, visible_text_or_empty (Except.error e) = "")
    ∧ visible_text_or_empty (Except.ok none) = "" := by
  refine ⟨?_, fun t => rfl, fun e => rfl, rfl⟩
  unfold wait_text_fast
  rcases hh : b.handleResult with e | h
  · exact Or.inl rfl
  · rcases h with _ | _
    · exact Or.inl rfl
    · rcases hw : b.waitResult with e | _
      · rcases e with _ | _
        · exact Or.inl rfl
        · exact Or.inr ⟨rfl, rfl⟩
      · exact Or.inl rfl


/-! ### Dedup loop of the catalog page walker (C5) -/

theorem walk_rows_count (rows : List (String × String))
    (seen : List (String × String)) (f s : String) (hs : s ≠ "") :
    ((walk_rows rows seen).1).count (f, s)
      = if (f, s) ∈ seen then 0 else if (f, s) ∈ rows then 1 else 0 := by
  induction rows generalizing seen with
  | nil =>
    simp only [walk_rows, List.count_nil, List.not_mem_nil, if_false]
    split <;> rfl
  | cons p rest ih =>
    obtain ⟨g, t⟩ := p
    by_cases hskip : (g, t) ∈ seen ∧ t ≠ ""
    · rw [walk_rows, if_pos hskip, ih seen]
      by_cases hin : (f, s) ∈ seen
      · simp [hin]
      · have hne : (f, s) ≠ (g, t) := fun he => hin (he ▸ hskip.1)
        simp [hin, hne]
    · rw [walk_rows, if_neg hskip]
      show List.count (f, s)
          ((g, t) :: (walk_rows rest (if t ≠ "" then (g, t) :: seen else seen)).1)
        = _
      rw [List.count_cons, ih]
      simp only [beq_iff_eq]
      by_cases heq : (f, s) = (g, t)
      · injection heq with h1 h2
        subst h1; subst h2
        have hnotin : (f, s) ∉ seen := fun hmem => hskip ⟨hmem, hs⟩
        rw [if_pos hs]
        simp [hnotin]
      · rw [if_neg (show ¬((g, t) = (f, s)) from fun h => heq h.symm)]
        have hm : ((f, s) ∈ (if t ≠ "" then (g, t) :: seen else seen))
            ↔ (f, s) ∈ seen := by
          split
          · simp [List.mem_cons, heq]
          · exact Iff.rfl
        by_cases hin : (f, s) ∈ seen
        · rw [if_pos (hm.mpr hin), if_pos hin]
        · simp only [if_neg hin, if_neg (fun hmm => hin (hm.mp hmm)), Nat.add_zero]
          simp [List.mem_cons, heq]

theorem walk_rows_seen_mono (rows : List (String × String)) :
    ∀ seen x, x ∈ seen → x ∈ (walk_rows rows seen).2 := by
  induction rows with
  | nil => intro seen x hx; simpa [walk_rows] using hx
  | cons p rest ih =>
    intro seen x hx
    obtain ⟨g, t⟩ := p
    by_cases hskip : (g, t) ∈ seen ∧ t ≠ ""
    · rw [walk_rows, if_pos hskip]
      exact ih seen x hx
    · rw [walk_rows, if_neg hskip]
      show x ∈ (walk_rows rest (if t ≠ "" then (g, t) :: seen else seen)).2
      apply ih
      split
      · exact List.mem_cons_of_mem _ hx
      · exact hx

/-- C5 counterexample: two rows with the identical pair `("f", "")` — an
empty identifier, as produced when SKU extraction fails — are both emitted:
the dedup guard `if (finish_display, sku) in seen and sku` never fires for an
empty identifier, so two Records are produced, not one. -/
theorem walk_rows_empty_sku_duplicated :
    ((walk_rows [("f", ""), ("f", "")] []).1).count ("f", "") = 2 := by decide

/-- C5 (amended): within a single run, rows with an identical
`(finish, identifier)` pair whose identifier is non-empty produce exactly one
Record (one when the pair occurs, none otherwise); rows with an empty
identifier are never deduplicated.  The seen-set is only ever added to. -/
theorem walk_rows_dedup (rows : List (String × String)) (f s : String)
    (hs : s ≠ "") :
    ((walk_rows rows []).1).count (f, s) = (if (f, s) ∈ rows then 1 else 0)
    ∧ ∀ seen x, x ∈ seen → x ∈ (walk_rows rows seen).2 := by
  refine ⟨?_, walk_rows_seen_mono rows⟩
  have h := walk_rows_count rows [] f s hs
  simpa using h

/-- Witness for `walk_rows_dedup`: a duplicated non-empty identifier yields
exactly one emitted record, and a pre-seeded seen entry survives the walk. -/
theorem walk_rows_dedup_witness :
    ((walk_rows [("f", "a"), ("f", "a")] []).1).count ("f", "a") = 1
    ∧ ("g", "b") ∈ (walk_rows [("f", "a"), ("f", "a")] [("g", "b")]).2 := by
  have h := walk_rows_dedup [("f", "a"), ("f", "a")] "f" "a" (by decide)
  exact ⟨by rw [h.1]; decide, h.2 [("g", "b")] ("g", "b") (by decide)⟩

/-! ### CSV writer schema growth (C6) -/

theorem prefix_add_fields (fs : List String) :
    ∀ h : List String, h <+: add_fields h fs := by
  induction fs with
  | nil => intro h; exact List.prefix_rfl
  | cons f fs ih =>
    intro h
    have hstep : h <+: (if f ≠ "" ∧ f ∉ h then h ++ [f] else h) := by
      split
      · exact ⟨[f], rfl⟩
      · exact List.prefix_rfl
    have hrw : add_fields h (f :: fs)
        = add_fields (if f ≠ "" ∧ f ∉ h then h ++ [f] else h) fs := rfl
    rw [hrw]
    exact hstep.trans (ih _)

theorem append_row_schema (st : WriterState) (core specs : List (String × String)) :
    (append_row st core specs).1.schema
      = some (add_fields (effective_schema st)
          ((specs.filter (fun kv => (core.lookup kv.1).isNone)).map Prod.fst)) := by
  unfold append_row ensure_schema
  dsimp only
  split
  · rfl
  · split <;> rfl

theorem ensure_schema_row_count (st : WriterState) (fields : List String) :
    file_row_count (ensure_schema st fields).1.file = file_row_count st.file := by
  unfold ensure_schema
  rcases st with ⟨cf, sch, fl⟩
  rcases fl with _ | c
  · rfl
  · dsimp only
    split
    · simp [file_row_count, write_all]
    · rfl

/-- C6: across any `append_row` call the writer's effective header for the
category only grows at its end (the previous header is a prefix of the new
one, so every previously present column survives in the same relative
order), and the in-place rewrite performed by `_ensure_schema` when the
on-disk header differs preserves the number of persisted data rows. -/
theorem append_row_schema_monotone (st : WriterState)
    (core specs : List (String × String)) :
    effective_schema st <+: effective_schema (append_row st core specs).1
    ∧ ∀ fields : List String,
        file_row_count (ensure_schema st fields).1.file = file_row_count st.file := by
  refine ⟨?_, fun fields => ensure_schema_row_count st fields⟩
  have h := append_row_schema st core specs
  have h2 : effective_schema (append_row st core specs).1
      = add_fields (effective_schema st)
          ((specs.filter (fun kv => (core.lookup kv.1).isNone)).map Prod.fst) := by
    rw [effective_schema, h]
  rw [h2]
  exact prefix_add_fields _ _

/-! ### MOQ hint merge (C8) -/

theorem merge_text_over_eq_spec (a t : Option Int) (ht : t ≠ some 0) :
    merge_text_over a t = spec_merge_larger a t := by
  rcases t with _ | v
  · rcases a with _ | x <;> rfl
  · have hv : v ≠ 0 := fun h => ht (by rw [h])
    rcases a with _ | x
    · simp [merge_text_over, spec_merge_larger, hv]
    · simp only [merge_text_over, spec_merge_larger, if_neg hv]
      by_cases hlt : x < v
      · rw [if_pos hlt]
        have : max x v = v := max_eq_right (le_of_lt hlt)
        rw [this]
      · rw [if_neg hlt]
        push_neg at hlt
        have : max x v = x := max_eq_left hlt
        rw [this]

/-- C8 counterexample: a text-derived value of 0 (for instance warning text
matching the MOQ pattern with the number 0) is dropped by the merge because
Python treats 0 as falsy: with no minimum attribute the sole available
text-derived value 0 is not returned, contradicting the claimed
"sole available one otherwise" merge. -/
theorem read_item_moq_hints_zero_dropped :
    (read_item_moq_hints none none (some 0) none).1 = none
    ∧ spec_merge_larger (attr_min_value none) (some 0) = some 0
    ∧ (read_item_moq_hints none none (some 0) none).1
        ≠ spec_merge_larger (attr_min_value none) (some 0) := by decide

/-- C8 (amended): whenever the text-derived value of a field is not the
(degenerate, Python-falsy) number 0, `_read_item_moq_hints` merges the
attribute-derived and text-derived values of that field by taking the larger
of the two when both exist and the sole available one otherwise; and a step
attribute whose lower-cased value is `"any"` is treated as absent. -/
theorem read_item_moq_hints_merge (minAttr stepAttr : Option String)
    (minText stepText : Option Int) (hm : minText ≠ some 0)
    (hs : stepText ≠ some 0) :
    read_item_moq_hints minAttr stepAttr minText stepText
      = (spec_merge_larger (attr_min_value minAttr) minText,
         spec_merge_larger (attr_step_value stepAttr) stepText)
    ∧ ∀ s : String, py_lower s = "any" → attr_step_value (some s) = none := by
  constructor
  · unfold read_item_moq_hints
    rw [merge_text_over_eq_spec _ _ hm, merge_text_over_eq_spec _ _ hs]
  · intro s hlow
    show (if s ≠ "" ∧ py_lower s ≠ "any" then parse_int_opt s else none) = none
    rw [if_neg]
    rintro ⟨-, hne⟩
    exact hne hlow

/-- Witness for `read_item_moq_hints_merge`: a "2" minimum attribute merged
with a text-derived 5 yields 5, and an "ANY" step attribute is ignored. -/
theorem read_item_moq_hints_merge_witness :
    read_item_moq_hints (some "2") (some "ANY") (some 5) none = (some 5, none)
    ∧ attr_step_value (some "ANY") = none := by
  have h := read_item_moq_hints_merge (some "2") (some "ANY") (some 5) none
    (by decide) (by decide)
  exact ⟨h.1.trans (by decide), h.2 "ANY" (by decide)⟩

/-! ### Range key sanitisation (C10) -/

theorem toLower_def (c : Char) :
    Char.toLower c =
      if c.toNat ≥ 65 ∧ c.toNat ≤ 90 then Char.ofNat (c.toNat + 32) else c := rfl

theorem toLower_isWhitespace (c : Char) :
    (Char.toLower c).isWhitespace = c.isWhitespace := by
  rw [toLower_def]
  split
  · next h =>
    obtain ⟨h65, h90⟩ := h
    have h1 : (Char.ofNat (c.toNat + 32)).isWhitespace = false := by
      generalize hg : c.toNat = n at h65 h90
      interval_cases n <;> decide
    have h2 : c.isWhitespace = false := by
      simp only [Char.isWhitespace, Bool.or_eq_false_iff, decide_eq_false_iff_not]
      refine ⟨⟨⟨?_, ?_⟩, ?_⟩, ?_⟩ <;> intro he <;> subst he <;>
        exact absurd h65 (by decide)
    rw [h1, h2]
  · rfl

theorem toLower_toLower (c : Char) :
    Char.toLower (Char.toLower c) = Char.toLower c := by
  by_cases h : c.toNat ≥ 65 ∧ c.toNat ≤ 90
  · have hd : Char.toLower c = Char.ofNat (c.toNat + 32) := by
      rw [toLower_def, if_pos h]
    rw [hd]
    obtain ⟨h65, h90⟩ := h
    generalize hg : c.toNat = n at h65 h90
    interval_cases n <;> decide
  · have hd : Char.toLower c = c := by rw [toLower_def, if_neg h]
    rw [hd]
    exact hd

theorem dropWhile_map_invariant {f : Char → Char} {p : Char → Bool}
    (hp : ∀ a, p (f a) = p a) (l : List Char) :
    (l.map f).dropWhile p = (l.dropWhile p).map f := by
  induction l with
  | nil => rfl
  | cons a t ih =>
    simp only [List.map_cons, List.dropWhile_cons, hp a]
    by_cases hpa : p a
    · simp [hpa, ih]
    · simp [hpa]

theorem py_strip_map_toLower (l : List Char) :
    py_strip (l.map Char.toLower) = (py_strip l).map Char.toLower := by
  unfold py_strip
  rw [dropWhile_map_invariant toLower_isWhitespace, ← List.map_reverse,
    dropWhile_map_invariant toLower_isWhitespace, ← List.map_reverse]

theorem range_key_chars_map_toLower (l : List Char) :
    range_key_chars (l.map Char.toLower) = range_key_chars l := by
  unfold range_key_chars
  rw [py_strip_map_toLower]
  simp only [List.map_map]
  rw [show space_to_underscore ∘ Char.toLower ∘ Char.toLower
      = space_to_underscore ∘ Char.toLower from
    funext fun c => congrArg space_to_underscore (toLower_toLower c)]

/-- C10 counterexample: interior spaces are turned into underscores before
the non-alphanumeric filter, so the concrete category names `"A B"` and
`"AB"`, which differ only in spacing, map to different keys and therefore
different files. -/
theorem range_key_spacing_counterexample :
    range_key "A B" = "a_b" ∧ range_key "AB" = "ab"
    ∧ range_key "A B" ≠ range_key "AB" := by decide

/-- C10 (amended): `_range_key` always returns a non-empty string over the
alphabet of lowercase letters, digits and underscores, returning the fixed
key `"unknown_range"` when nothing of the name survives sanitisation, and
two category names differing only in (ASCII) letter case map to the same
file. -/
theorem range_key_sanitisation (s t : String)
    (h : s.toList.map Char.toLower = t.toList.map Char.toLower) :
    range_key s ≠ ""
    ∧ (∀ c ∈ (range_key s).toList, key_char_ok c = true)
    ∧ range_key s = range_key t
    ∧ (range_key_chars s.toList = [] → range_key s = "unknown_range") := by
  have hchars : range_key_chars s.toList = range_key_chars t.toList := by
    rw [← range_key_chars_map_toLower s.toList, h, range_key_chars_map_toLower]
  refine ⟨?_, ?_, ?_, ?_⟩
  · unfold range_key
    dsimp only
    split
    · decide
    · assumption
  · intro c hc
    unfold range_key at hc
    dsimp only at hc
    split at hc
    · revert hc
      revert c
      decide
    · have : (String.mk (range_key_chars s.toList)).toList
          = range_key_chars s.toList := rfl
      rw [this] at hc
      exact List.of_mem_filter hc
  · unfold range_key
    dsimp only
    rw [hchars]
  · intro hnil
    unfold range_key
    dsimp only
    rw [hnil]
    rfl

/-- Witness for `range_key_sanitisation`: names differing only in case share
one key, and the key is non-empty. -/
theorem range_key_sanitisation_witness :
    range_key "Alpha-1" = range_key "ALPHA-1" ∧ range_key "Alpha-1" ≠ "" := by
  have h := range_key_sanitisation "Alpha-1" "ALPHA-1" (by decide)
  exact ⟨h.2.2.1, h.1⟩
